import Mathlib

/-!
# dma-detect: the device classification core of `dma/dma/main.cpp`

A shallow embedding of the pattern catalog, `ToUpper`, `ContainsPattern`,
the hardware-ID joining loop of `GetDeviceHardwareIds` and the device loop of
`ScanForSuspiciousDevices`, followed by theorems about them.

A `std::string` is the list of its byte values.  The Windows SetupAPI is
outside the program, so a device enumeration is given by what its calls
return: whether the enumeration handle could be opened, and for each device
that `SetupDiEnumDeviceInfo` yields, the results of the three property
queries.
-/

namespace DmaDetect

/-- A `std::string`: its bytes, in order. -/
abbrev Str := List Nat

/-- The bytes of a string literal of the source (all of them are ASCII). -/
def lit (s : String) : Str := s.toList.map Char.toNat

/-! ## The pattern catalog (main.cpp, lines 4-28) -/

def KMBOX_PATTERNS : List Str :=
  [ lit "VID_1A2C&PID_2124",
    lit "VID_1A2C&PID_21",
    lit "VID_1A86&PID_E026",
    lit "KMBOX",
    lit "KEYBOARD_MOUSE_BOX" ]

def FUZER_PATTERNS : List Str :=
  [ lit "VID_0483&PID_5750",
    lit "VID_0483&PID_5740",
    lit "FUZER",
    lit "STM32",
    lit "DFU_INTERFACE" ]

def DMA_PATTERNS : List Str :=
  [ lit "PCI\\CC_0800",
    lit "PCI\\CC_0880",
    lit "THUNDERBOLT",
    lit "PCIEXPRESS",
    lit "FPGA",
    lit "ACCELE",
    lit "SYSTEM_PERIPHERAL" ]

/-! ## DeviceInfo (main.cpp, lines 31-37) -/

structure DeviceInfo where
  deviceId : Str
  description : Str
  hardwareIds : Str
  isSuspicious : Bool
  detectionReason : Str
  deriving DecidableEq, Repr

/-! ## ToUpper and ContainsPattern (main.cpp, lines 58-75) -/

/-- The C library `::toupper` in the "C" locale (the program never calls
`setlocale`): the bytes of `a`..`z` (97..122) go to `A`..`Z`, every other
byte is returned unchanged. -/
def toupper (c : Nat) : Nat :=
  if 97 ≤ c ∧ c ≤ 122 then c - 32 else c

/-- `ToUpper`: `std::transform` of `::toupper` over a copy of the string. -/
def ToUpper (str : Str) : Str :=
  str.map toupper

/-- `std::string::find(needle)` searching from a position `pos` at which
`hay` is what remains of the string: the lowest position at which `needle`
occurs, `none` standing for `std::string::npos`. -/
def findFrom (needle : Str) : Str → Nat → Option Nat
  | [], pos => if needle.isPrefixOf [] then some pos else none
  | c :: cs, pos =>
      if needle.isPrefixOf (c :: cs) then some pos else findFrom needle cs (pos + 1)

/-- `hay.find(needle)`, the search starting at position 0. -/
def find (hay needle : Str) : Option Nat :=
  findFrom needle hay 0

/-- The `for` loop of `ContainsPattern` over the patterns, `upperText`
already computed. -/
def ContainsPattern.loop (upperText : Str) : List Str → Bool
  | [] => false
  | pattern :: rest =>
      if find upperText (ToUpper pattern) ≠ none then true
      else ContainsPattern.loop upperText rest

def ContainsPattern (text : Str) (patterns : List Str) : Bool :=
  let upperText := ToUpper text
  ContainsPattern.loop upperText patterns

/-! ## GetDeviceHardwareIds (main.cpp, lines 102-132) -/

/-- The `while (*current)` loop of `GetDeviceHardwareIds`.  `entries` are the
values `WideToMultiByte(current)` of the successive entries of the
multi-string buffer, in buffer order; `result` is the string built so far. -/
def GetDeviceHardwareIds.loop (result : Str) : List Str → Str
  | [] => result
  | entry :: rest =>
      let result := if result ≠ [] then result ++ lit ";" else result
      let result := result ++ entry
      GetDeviceHardwareIds.loop result rest

/-- `GetDeviceHardwareIds`.  The argument is the outcome of the two
`SetupDiGetDeviceRegistryPropertyW` calls for `SPDRP_HARDWAREID`: `none` when
the required size is 0 or the second call fails (the function returns `""`),
`some entries` when the buffer was filled, `entries` being its converted
strings. -/
def GetDeviceHardwareIds (query : Option (List Str)) : Str :=
  match query with
  | none => lit ""
  | some entries => GetDeviceHardwareIds.loop (lit "") entries

/-! ## ScanForSuspiciousDevices (main.cpp, lines 135-186) -/

/-- What the SetupAPI returns for one device yielded by
`SetupDiEnumDeviceInfo`: the results of `GetDeviceProperty` for
`SPDRP_HARDWAREID` and `SPDRP_DEVICEDESC` (`""` when the query fails) and the
outcome of the hardware-ID query of `GetDeviceHardwareIds`. -/
structure EnumeratedDevice where
  hardwareIdProperty : Str
  deviceDesc : Str
  hardwareIdQuery : Option (List Str)
  deriving DecidableEq, Repr

def KMBOX_REASON : Str := lit "[$] KMBox pattern detected"
def FUZER_REASON : Str := lit "[$] Fuzer pattern detected"
def DMA_REASON : Str := lit "[$] DMA-capable device detected"

/-- The `for` loop of `ScanForSuspiciousDevices` over the devices that
`SetupDiEnumDeviceInfo` yields; `suspiciousDevices` is the vector built so
far and `push_back` appends at its end.  The local `device` has its
`isSuspicious` and `detectionReason` assigned before every `push_back`, and
is dropped otherwise. -/
def ScanForSuspiciousDevices.loop (suspiciousDevices : List DeviceInfo) :
    List EnumeratedDevice → List DeviceInfo
  | [] => suspiciousDevices
  | e :: rest =>
      let deviceId := e.hardwareIdProperty
      let description := e.deviceDesc
      let hardwareIds := GetDeviceHardwareIds e.hardwareIdQuery
      if ContainsPattern hardwareIds KMBOX_PATTERNS ||
          ContainsPattern description KMBOX_PATTERNS then
        ScanForSuspiciousDevices.loop
          (suspiciousDevices ++ [⟨deviceId, description, hardwareIds, true, KMBOX_REASON⟩]) rest
      else if ContainsPattern hardwareIds FUZER_PATTERNS ||
          ContainsPattern description FUZER_PATTERNS then
        ScanForSuspiciousDevices.loop
          (suspiciousDevices ++ [⟨deviceId, description, hardwareIds, true, FUZER_REASON⟩]) rest
      else if ContainsPattern hardwareIds DMA_PATTERNS ||
          ContainsPattern description DMA_PATTERNS then
        ScanForSuspiciousDevices.loop
          (suspiciousDevices ++ [⟨deviceId, description, hardwareIds, true, DMA_REASON⟩]) rest
      else
        ScanForSuspiciousDevices.loop suspiciousDevices rest

/-- One call of `ScanForSuspiciousDevices` as its caller sees it: the lines it
writes to `std::cout` and the vector it returns. -/
structure ScanRun where
  stdout : List Str
  returned : List DeviceInfo
  deriving DecidableEq, Repr

/-- `ScanForSuspiciousDevices`.  `hDevInfo` is `none` when
`SetupDiGetClassDevsW` returns `INVALID_HANDLE_VALUE`, and otherwise the
devices the enumeration yields, in order. -/
def ScanForSuspiciousDevices (hDevInfo : Option (List EnumeratedDevice)) : ScanRun :=
  let suspiciousDevices : List DeviceInfo := []
  match hDevInfo with
  | none =>
      { stdout := [lit "Failed to get device information."], returned := suspiciousDevices }
  | some devices =>
      { stdout := [], returned := ScanForSuspiciousDevices.loop suspiciousDevices devices }

/-! ## Vocabulary of the statements -/

/-- A pattern list matches a device: `ContainsPattern` holds on its joined
hardware IDs or on its description. -/
def categoryMatches (hardwareIds description : Str) (patterns : List Str) : Bool :=
  ContainsPattern hardwareIds patterns || ContainsPattern description patterns

/-- Some one of the three categories matches the enumerated device. -/
def flagged (e : EnumeratedDevice) : Bool :=
  categoryMatches (GetDeviceHardwareIds e.hardwareIdQuery) e.deviceDesc KMBOX_PATTERNS ||
  categoryMatches (GetDeviceHardwareIds e.hardwareIdQuery) e.deviceDesc FUZER_PATTERNS ||
  categoryMatches (GetDeviceHardwareIds e.hardwareIdQuery) e.deviceDesc DMA_PATTERNS

/-- The three strings the scan reads for an enumerated device: `deviceId`,
`description` and `hardwareIds`. -/
def deviceText (e : EnumeratedDevice) : Str × Str × Str :=
  (e.hardwareIdProperty, e.deviceDesc, GetDeviceHardwareIds e.hardwareIdQuery)

/-- Position of a detection reason in the priority order KMBox, Fuzer, DMA. -/
def priority (reason : Str) : Nat :=
  if reason = KMBOX_REASON then 0
  else if reason = FUZER_REASON then 1
  else if reason = DMA_REASON then 2
  else 3

/-- The record one iteration of the device loop pushes, if it pushes one. -/
def pushed (e : EnumeratedDevice) : Option DeviceInfo :=
  let hardwareIds := GetDeviceHardwareIds e.hardwareIdQuery
  if categoryMatches hardwareIds e.deviceDesc KMBOX_PATTERNS then
    some ⟨e.hardwareIdProperty, e.deviceDesc, hardwareIds, true, KMBOX_REASON⟩
  else if categoryMatches hardwareIds e.deviceDesc FUZER_PATTERNS then
    some ⟨e.hardwareIdProperty, e.deviceDesc, hardwareIds, true, FUZER_REASON⟩
  else if categoryMatches hardwareIds e.deviceDesc DMA_PATTERNS then
    some ⟨e.hardwareIdProperty, e.deviceDesc, hardwareIds, true, DMA_REASON⟩
  else none

/-! ## Devices of the end-to-end scenarios -/

/-- Scenario A: hardware IDs `VID_1A2C&PID_2124`, empty description. -/
def scenarioA : EnumeratedDevice :=
  ⟨lit "VID_1A2C&PID_2124", lit "", some [lit "VID_1A2C&PID_2124"]⟩

/-- Scenario B: no hardware IDs, a description naming a PCI accelerator,
spelled with the two backslashes the scenario is written with. -/
def scenarioB : EnumeratedDevice :=
  ⟨lit "", lit "Generic PCI Accelerator, compatible with PCI\\\\CC_0800", none⟩

/-- Scenario C: an ordinary network adapter. -/
def scenarioC : EnumeratedDevice :=
  ⟨lit "VID_8086&PID_1234", lit "Intel Network Adapter", some [lit "VID_8086&PID_1234"]⟩

/-- A device whose property queries all come back empty. -/
def emptyDevice : EnumeratedDevice :=
  ⟨lit "", lit "", none⟩

/-! ## Facts about the matching primitive -/

theorem toupper_idem (c : Nat) : toupper (toupper c) = toupper c := by
  unfold toupper
  split_ifs <;> omega

theorem ToUpper_idem (s : Str) : ToUpper (ToUpper s) = ToUpper s := by
  simp [ToUpper, toupper_idem]

theorem findFrom_ne_none_iff (needle hay : Str) (pos : Nat) :
    findFrom needle hay pos ≠ none ↔ needle <:+: hay := by
  induction hay generalizing pos with
  | nil =>
      cases needle <;> simp [findFrom]
  | cons c cs ih =>
      rw [findFrom, List.infix_cons_iff]
      by_cases h : needle.isPrefixOf (c :: cs) = true
      · rw [if_pos h]
        simp [List.isPrefixOf_iff_prefix.mp h]
      · rw [if_neg h, ih]
        have h' : ¬ needle <+: c :: cs := fun hp => h (List.isPrefixOf_iff_prefix.mpr hp)
        simp [h']

theorem find_ne_none_iff (hay needle : Str) : find hay needle ≠ none ↔ needle <:+: hay :=
  findFrom_ne_none_iff needle hay 0

theorem ContainsPattern.loop_iff (upperText : Str) (patterns : List Str) :
    ContainsPattern.loop upperText patterns = true ↔
      ∃ P ∈ patterns, ToUpper P <:+: upperText := by
  induction patterns with
  | nil => simp [ContainsPattern.loop]
  | cons p rest ih =>
      rw [ContainsPattern.loop]
      by_cases h : find upperText (ToUpper p) ≠ none
      · rw [if_pos h]
        simp [(find_ne_none_iff _ _).mp h]
      · rw [if_neg h, ih]
        have h' : ¬ ToUpper p <:+: upperText := fun hp => h ((find_ne_none_iff _ _).mpr hp)
        simp [h']

/-- `ContainsPattern` is exactly: some pattern, upper-cased, is a contiguous
part of the upper-cased text. -/
theorem ContainsPattern_iff (text : Str) (patterns : List Str) :
    ContainsPattern text patterns = true ↔
      ∃ P ∈ patterns, ToUpper P <:+: ToUpper text :=
  ContainsPattern.loop_iff (ToUpper text) patterns

theorem ContainsPattern_mono {T T' : Str} (h : T <:+: T') (L : List Str)
    (hT : ContainsPattern T L = true) : ContainsPattern T' L = true := by
  rw [ContainsPattern_iff] at hT ⊢
  obtain ⟨P, hP, hsub⟩ := hT
  exact ⟨P, hP, hsub.trans (List.IsInfix.map toupper h)⟩

theorem ContainsPattern_nil_text (L : List Str) :
    ContainsPattern [] L = true ↔ [] ∈ L := by
  rw [ContainsPattern_iff]
  constructor
  · rintro ⟨P, hP, hsub⟩
    have hP0 : ToUpper P = [] := List.eq_nil_of_infix_nil hsub
    have : P = [] := by simpa [ToUpper] using hP0
    exact this ▸ hP
  · intro h
    exact ⟨[], h, by simp [ToUpper]⟩

/-! ## Facts about the device loop -/

theorem ScanForSuspiciousDevices.loop_eq (acc : List DeviceInfo) (devs : List EnumeratedDevice) :
    ScanForSuspiciousDevices.loop acc devs = acc ++ devs.filterMap pushed := by
  induction devs generalizing acc with
  | nil => simp [ScanForSuspiciousDevices.loop]
  | cons e rest ih =>
      rw [ScanForSuspiciousDevices.loop]
      simp only [ih, List.filterMap_cons, pushed, categoryMatches]
      split_ifs <;> simp

theorem returned_eq (devs : List EnumeratedDevice) :
    (ScanForSuspiciousDevices (some devs)).returned = devs.filterMap pushed := by
  simp [ScanForSuspiciousDevices, ScanForSuspiciousDevices.loop_eq]

theorem pushed_eq_none_iff (e : EnumeratedDevice) : pushed e = none ↔ flagged e = false := by
  simp only [pushed, flagged]
  split_ifs <;> simp_all

theorem categoryMatches_mono {hw hw' desc desc' : Str} (hh : hw <:+: hw') (hd : desc <:+: desc')
    (L : List Str) (h : categoryMatches hw desc L = true) : categoryMatches hw' desc' L = true := by
  simp only [categoryMatches, Bool.or_eq_true] at h ⊢
  rcases h with h | h
  · exact Or.inl (ContainsPattern_mono hh L h)
  · exact Or.inr (ContainsPattern_mono hd L h)

/-- What a pushed record looks like: the device's three strings, the flag
set, and the reason of the first category that matches. -/
theorem pushed_some {e : EnumeratedDevice} {r : DeviceInfo} (h : pushed e = some r) :
    r.deviceId = e.hardwareIdProperty ∧ r.description = e.deviceDesc ∧
    r.hardwareIds = GetDeviceHardwareIds e.hardwareIdQuery ∧ r.isSuspicious = true ∧
    ((r.detectionReason = KMBOX_REASON ∧
        categoryMatches r.hardwareIds r.description KMBOX_PATTERNS = true) ∨
     (r.detectionReason = FUZER_REASON ∧
        categoryMatches r.hardwareIds r.description KMBOX_PATTERNS = false ∧
        categoryMatches r.hardwareIds r.description FUZER_PATTERNS = true) ∨
     (r.detectionReason = DMA_REASON ∧
        categoryMatches r.hardwareIds r.description KMBOX_PATTERNS = false ∧
        categoryMatches r.hardwareIds r.description FUZER_PATTERNS = false ∧
        categoryMatches r.hardwareIds r.description DMA_PATTERNS = true)) := by
  simp only [pushed] at h
  split_ifs at h with hk hf hd
  · cases h; simp [hk]
  · cases h; simp_all
  · cases h; simp_all

theorem priority_KMBOX : priority KMBOX_REASON = 0 := by decide
theorem priority_FUZER : priority FUZER_REASON = 1 := by decide
theorem priority_DMA : priority DMA_REASON = 2 := by decide

/-! ## Facts about the joining loop -/

theorem lit_semicolon : lit ";" = [59] := by decide

/-- A string free of `sep` that starts `a ++ sep :: b` ends before `sep`. -/
theorem prefix_of_prefix_append_sep {sep : Nat} {p : Str} (hp : sep ∉ p) :
    ∀ {a b : Str}, p <+: a ++ sep :: b → p <+: a := by
  induction p with
  | nil => intro a b _; exact List.nil_prefix
  | cons y p' ih =>
      intro a b h
      have hy : sep ≠ y := fun hs => hp (hs ▸ List.mem_cons_self _ _)
      have hp' : sep ∉ p' := fun hs => hp (List.mem_cons_of_mem _ hs)
      cases a with
      | nil =>
          rw [List.nil_append, List.cons_prefix_cons] at h
          exact absurd h.1.symm hy
      | cons x a' =>
          rw [List.cons_append, List.cons_prefix_cons] at h
          exact List.cons_prefix_cons.mpr ⟨h.1, ih hp' h.2⟩

/-- A string free of `sep` occurs in `a ++ sep :: b` only inside `a` or
inside `b`. -/
theorem infix_append_sep_iff {sep : Nat} {p : Str} (hp : sep ∉ p) (a b : Str) :
    p <:+: a ++ sep :: b ↔ p <:+: a ∨ p <:+: b := by
  constructor
  · intro h
    induction a with
    | nil =>
        rw [List.nil_append, List.infix_cons_iff] at h
        rcases h with h | h
        · exact Or.inl (prefix_of_prefix_append_sep (a := []) hp h).isInfix
        · exact Or.inr h
    | cons x a' ih =>
        rw [List.cons_append, List.infix_cons_iff] at h
        rcases h with h | h
        · rw [← List.cons_append] at h
          exact Or.inl (prefix_of_prefix_append_sep hp h).isInfix
        · rcases ih h with h' | h'
          · exact Or.inl (h'.trans (List.suffix_cons x a').isInfix)
          · exact Or.inr h'
  · rintro (h | h)
    · exact h.trans (List.prefix_append a (sep :: b)).isInfix
    · exact h.trans ((List.suffix_cons sep b).isInfix.trans
        (List.suffix_append a (sep :: b)).isInfix)

/-- For patterns free of `;`, a text with a `;` in it matches exactly when
the part before or the part after the `;` does. -/
theorem ContainsPattern_append_semicolon {L : List Str} (hsep : ∀ P ∈ L, 59 ∉ ToUpper P)
    (a b : Str) :
    ContainsPattern (a ++ 59 :: b) L = true ↔
      ContainsPattern a L = true ∨ ContainsPattern b L = true := by
  have hup : ToUpper (a ++ 59 :: b) = ToUpper a ++ 59 :: ToUpper b := by
    simp [ToUpper, toupper]
  simp only [ContainsPattern_iff, hup]
  constructor
  · rintro ⟨P, hP, h⟩
    rcases (infix_append_sep_iff (hsep P hP) _ _).mp h with h' | h'
    · exact Or.inl ⟨P, hP, h'⟩
    · exact Or.inr ⟨P, hP, h'⟩
  · rintro (⟨P, hP, h⟩ | ⟨P, hP, h⟩)
    · exact ⟨P, hP, (infix_append_sep_iff (hsep P hP) _ _).mpr (Or.inl h)⟩
    · exact ⟨P, hP, (infix_append_sep_iff (hsep P hP) _ _).mpr (Or.inr h)⟩

/-- The joining loop creates no match of its own: for patterns that are
non-empty and free of `;`, the joined string matches exactly when the string
built so far or one of the entries does. -/
theorem GetDeviceHardwareIds.loop_matches {L : List Str} (hsep : ∀ P ∈ L, 59 ∉ ToUpper P)
    (hne : [] ∉ L) (entries : List Str) :
    ∀ result : Str, ContainsPattern (GetDeviceHardwareIds.loop result entries) L = true ↔
      ContainsPattern result L = true ∨ ∃ id ∈ entries, ContainsPattern id L = true := by
  have hnil : ¬ ContainsPattern [] L = true := fun h => hne ((ContainsPattern_nil_text L).mp h)
  induction entries with
  | nil => intro result; simp [GetDeviceHardwareIds.loop]
  | cons entry rest ih =>
      intro result
      rw [GetDeviceHardwareIds.loop]
      simp only [ih, List.mem_cons, exists_eq_or_imp, lit_semicolon]
      rw [← or_assoc]
      apply or_congr_left
      by_cases hres : result = []
      · subst hres
        simp [hnil]
      · rw [if_pos hres, List.append_assoc, List.singleton_append]
        exact ContainsPattern_append_semicolon hsep result entry

theorem GetDeviceHardwareIds.loop_of_ne_nil (entries : List Str) :
    ∀ result : Str, result ≠ [] →
      GetDeviceHardwareIds.loop result entries =
        result ++ (entries.map (fun id => lit ";" ++ id)).flatten := by
  induction entries with
  | nil => intro result _; simp [GetDeviceHardwareIds.loop]
  | cons entry rest ih =>
      intro result hres
      rw [GetDeviceHardwareIds.loop]
      simp only [if_pos hres]
      rw [ih _ (by simp [hres])]
      simp

theorem intercalate_cons_cons (sep x y : Str) (rest : List Str) :
    sep.intercalate (x :: y :: rest) = x ++ sep ++ sep.intercalate (y :: rest) := by
  simp [List.intercalate, List.intersperse]

/-- On entries that are all non-empty (an empty entry ends the buffer), the
string `GetDeviceHardwareIds` builds is the entries joined with `;`. -/
theorem GetDeviceHardwareIds_eq_intercalate (ids : List Str) (hne : ∀ id ∈ ids, id ≠ []) :
    GetDeviceHardwareIds (some ids) = (lit ";").intercalate ids := by
  cases ids with
  | nil => rfl
  | cons id rest =>
      have hid : id ≠ [] := hne id (List.mem_cons_self _ _)
      have h0 : lit "" = [] := rfl
      simp only [GetDeviceHardwareIds, GetDeviceHardwareIds.loop, h0, ne_eq, not_true_eq_false,
        if_false, List.nil_append]
      rw [GetDeviceHardwareIds.loop_of_ne_nil rest id hid]
      clear hne hid
      induction rest generalizing id with
      | nil => simp [List.intercalate]
      | cons y rest ih =>
          rw [intercalate_cons_cons, ← ih y]
          simp

/-- Scenario B read with a single backslash in the description (the C++
spelling of the pattern `PCI\\CC_0800`) is reported the same way. -/
theorem scenarioB_single_backslash :
    (ScanForSuspiciousDevices
        (some [⟨lit "", lit "Generic PCI Accelerator, compatible with PCI\\CC_0800", none⟩])).returned
      = [⟨lit "", lit "Generic PCI Accelerator, compatible with PCI\\CC_0800", lit "", true,
          DMA_REASON⟩] := by
  decide

/-! ## The matching primitive: claims -/

/-- C1: `ContainsPattern` is case-insensitive containment.  Whenever the
pattern list `L` holds a letter-case variant `P'` of a pattern `P`, and some
letter-case variant `Pv` of `P` is a contiguous part of some letter-case
variant `Tv` of the text `T`, `ContainsPattern T L` returns true.  (With
`Pv = ToUpper P` and `Tv = ToUpper T` this is: `ToUpper P` is a contiguous
part of `ToUpper T`.) -/
theorem ContainsPattern_case_insensitive (T P P' Pv Tv : Str) (L : List Str)
    (hL : P' ∈ L) (hP' : ToUpper P' = ToUpper P)
    (hPv : ToUpper Pv = ToUpper P) (hTv : ToUpper Tv = ToUpper T)
    (hsub : Pv <:+: Tv) : ContainsPattern T L = true := by
  rw [ContainsPattern_iff]
  refine ⟨P', hL, ?_⟩
  rw [hP', ← hPv, ← hTv]
  exact List.IsInfix.map toupper hsub

/-- C1 at the spec's example: the lower-case text `vid_1a2c&pid_2124` matches
the upper-case pattern `VID_1A2C&PID_2124`. -/
theorem ContainsPattern_case_insensitive_witness :
    ContainsPattern (lit "vid_1a2c&pid_2124") [lit "VID_1A2C&PID_2124"] = true :=
  ContainsPattern_case_insensitive (lit "vid_1a2c&pid_2124") (lit "VID_1A2C&PID_2124")
    (lit "VID_1A2C&PID_2124") (lit "vid_1a2c&pid_2124") (lit "vid_1a2c&pid_2124")
    [lit "VID_1A2C&PID_2124"] (by decide) rfl (by decide) rfl (List.infix_refl _)

/-- C2 fails as stated: on the empty text, a pattern list that holds the
empty string makes `ContainsPattern` return true (`find` of `""` in `""` is
position 0, not `npos`). -/
theorem ContainsPattern_empty_text_empty_pattern :
    ContainsPattern (lit "") [lit ""] = true := by
  decide

/-- C2, amended: for every pattern list `L` that does not hold the empty
string, `ContainsPattern` on the empty text returns false. -/
theorem ContainsPattern_empty_text (L : List Str) (hL : lit "" ∉ L) :
    ContainsPattern (lit "") L = false := by
  have h := ContainsPattern_nil_text L
  have hlit : lit "" = [] := rfl
  rw [hlit] at hL ⊢
  cases hc : ContainsPattern [] L with
  | false => rfl
  | true => exact absurd (h.mp hc) hL

/-- C2, amended, at the KMBox pattern list. -/
theorem ContainsPattern_empty_text_witness :
    lit "" ∉ KMBOX_PATTERNS ∧ ContainsPattern (lit "") KMBOX_PATTERNS = false :=
  ⟨by decide, ContainsPattern_empty_text KMBOX_PATTERNS (by decide)⟩

/-- C8: no false positives of the matching primitive.  If
`ContainsPattern T L` returns true, some pattern `P` of `L` has `ToUpper P`
as a contiguous part of `ToUpper T`; and on the empty pattern list
`ContainsPattern` returns false for every text. -/
theorem ContainsPattern_sound (T : Str) (L : List Str) :
    (ContainsPattern T L = true → ∃ P ∈ L, ToUpper P <:+: ToUpper T) ∧
      ContainsPattern T [] = false :=
  ⟨(ContainsPattern_iff T L).mp, rfl⟩

/-- C8 at a text that matches: the pattern found is a contiguous part of the
upper-cased text. -/
theorem ContainsPattern_sound_witness :
    ∃ P ∈ [lit "KMBOX"], ToUpper P <:+: ToUpper (lit "usb kmbox net") :=
  (ContainsPattern_sound (lit "usb kmbox net") [lit "KMBOX"]).1 (by decide)

/-! ## The scan: claims -/

/-- C3: first-match invariant.  Every record of the list returned by
`ScanForSuspiciousDevices` carries the three strings of an enumerated device
and the reason of the first category, in the order KMBox, Fuzer, DMA, that
matches its joined hardware IDs or its description: the Fuzer reason only
when no KMBox pattern matches either field, the DMA reason only when neither
a KMBox nor a Fuzer pattern does. -/
theorem scan_first_match (devs : List EnumeratedDevice) (r : DeviceInfo)
    (hr : r ∈ (ScanForSuspiciousDevices (some devs)).returned) :
    (∃ e ∈ devs, r.deviceId = e.hardwareIdProperty ∧ r.description = e.deviceDesc ∧
        r.hardwareIds = GetDeviceHardwareIds e.hardwareIdQuery) ∧
    ((r.detectionReason = KMBOX_REASON ∧
        categoryMatches r.hardwareIds r.description KMBOX_PATTERNS = true) ∨
     (r.detectionReason = FUZER_REASON ∧
        categoryMatches r.hardwareIds r.description KMBOX_PATTERNS = false ∧
        categoryMatches r.hardwareIds r.description FUZER_PATTERNS = true) ∨
     (r.detectionReason = DMA_REASON ∧
        categoryMatches r.hardwareIds r.description KMBOX_PATTERNS = false ∧
        categoryMatches r.hardwareIds r.description FUZER_PATTERNS = false ∧
        categoryMatches r.hardwareIds r.description DMA_PATTERNS = true)) := by
  rw [returned_eq, List.mem_filterMap] at hr
  obtain ⟨e, he, hp⟩ := hr
  obtain ⟨h1, h2, h3, _, h5⟩ := pushed_some hp
  exact ⟨⟨e, he, h1, h2, h3⟩, h5⟩

/-- C3 at scenario B: the device with no hardware IDs and the description
`Generic PCI Accelerator, compatible with PCI\\CC_0800` is reported once, and
its record obeys the invariant (it carries the DMA-capable reason). -/
theorem scan_first_match_witness :
    (ScanForSuspiciousDevices (some [scenarioB])).returned =
        [⟨lit "", scenarioB.deviceDesc, lit "", true, DMA_REASON⟩] ∧
    ((∃ e ∈ [scenarioB], lit "" = e.hardwareIdProperty ∧ scenarioB.deviceDesc = e.deviceDesc ∧
        lit "" = GetDeviceHardwareIds e.hardwareIdQuery) ∧
    ((DMA_REASON = KMBOX_REASON ∧
        categoryMatches (lit "") scenarioB.deviceDesc KMBOX_PATTERNS = true) ∨
     (DMA_REASON = FUZER_REASON ∧
        categoryMatches (lit "") scenarioB.deviceDesc KMBOX_PATTERNS = false ∧
        categoryMatches (lit "") scenarioB.deviceDesc FUZER_PATTERNS = true) ∨
     (DMA_REASON = DMA_REASON ∧
        categoryMatches (lit "") scenarioB.deviceDesc KMBOX_PATTERNS = false ∧
        categoryMatches (lit "") scenarioB.deviceDesc FUZER_PATTERNS = false ∧
        categoryMatches (lit "") scenarioB.deviceDesc DMA_PATTERNS = true))) :=
  ⟨by decide,
   scan_first_match [scenarioB] ⟨lit "", scenarioB.deviceDesc, lit "", true, DMA_REASON⟩
     (by decide)⟩

/-- C4: the scan is an order-preserving filter.  After a successful open, the
returned list, read as the `deviceId`, `description` and `hardwareIds` of its
records, is the enumerated sequence filtered by "some category matches":
same relative order, one record per enumerated occurrence, none for a device
that matches no category. -/
theorem scan_order_preserving_filter (devs : List EnumeratedDevice) :
    (ScanForSuspiciousDevices (some devs)).returned.map
        (fun r => (r.deviceId, r.description, r.hardwareIds)) =
      (devs.filter (fun e => flagged e)).map deviceText := by
  rw [returned_eq]
  induction devs with
  | nil => rfl
  | cons e rest ih =>
      rw [List.filterMap_cons, List.filter_cons]
      cases hp : pushed e with
      | none =>
          have hf : flagged e = false := (pushed_eq_none_iff e).mp hp
          simp [hf, ih]
      | some r =>
          have hf : flagged e = true := by
            cases hfe : flagged e with
            | true => rfl
            | false => rw [(pushed_eq_none_iff e).mpr hfe] at hp; cases hp
          obtain ⟨h1, h2, h3, _, _⟩ := pushed_some hp
          simp [hf, ih, deviceText, h1, h2, h3]

/-- C4 at scenario C, whose single device with hardware IDs
`VID_8086&PID_1234` and description `Intel Network Adapter` yields the empty
list, and at the enumeration A, C, B, A, which yields the records of A, B, A
in that order. -/
theorem scan_order_preserving_filter_witness :
    (ScanForSuspiciousDevices (some [scenarioC])).returned = [] ∧
    [scenarioA, scenarioC, scenarioB, scenarioA].filter (fun e => flagged e) =
      [scenarioA, scenarioB, scenarioA] ∧
    (ScanForSuspiciousDevices (some [scenarioA, scenarioC, scenarioB, scenarioA])).returned.map
        (fun r => (r.deviceId, r.description, r.hardwareIds)) =
      ([scenarioA, scenarioC, scenarioB, scenarioA].filter (fun e => flagged e)).map deviceText :=
  ⟨by decide, by decide,
   scan_order_preserving_filter [scenarioA, scenarioC, scenarioB, scenarioA]⟩

/-- C5 fails as stated: a failed open and a successful scan of a device that
matches no category return the same value, the empty list. -/
theorem scan_failure_returns_same_value :
    flagged scenarioC = false ∧
      (ScanForSuspiciousDevices none).returned =
        (ScanForSuspiciousDevices (some [scenarioC])).returned := by
  decide

/-- C5, amended: when the enumeration cannot be opened,
`ScanForSuspiciousDevices` writes the line `Failed to get device information.`
to standard output and returns the empty list; a successful scan in which no
device matches any category writes nothing and returns the empty list too.
The returned value is the same in both cases; the failure shows only on the
console. -/
theorem scan_failure_console_only (devs : List EnumeratedDevice)
    (hclean : ∀ e ∈ devs, flagged e = false) :
    (ScanForSuspiciousDevices none).returned = [] ∧
    (ScanForSuspiciousDevices none).stdout = [lit "Failed to get device information."] ∧
    (ScanForSuspiciousDevices (some devs)).returned = [] ∧
    (ScanForSuspiciousDevices (some devs)).stdout = [] := by
  refine ⟨rfl, rfl, ?_, rfl⟩
  rw [returned_eq, List.filterMap_eq_nil_iff]
  intro e he
  exact (pushed_eq_none_iff e).mpr (hclean e he)

/-- C5, amended, at scenario C. -/
theorem scan_failure_console_only_witness :
    (∀ e ∈ [scenarioC], flagged e = false) ∧
    (ScanForSuspiciousDevices none).returned = [] ∧
    (ScanForSuspiciousDevices none).stdout = [lit "Failed to get device information."] ∧
    (ScanForSuspiciousDevices (some [scenarioC])).returned = [] ∧
    (ScanForSuspiciousDevices (some [scenarioC])).stdout = [] :=
  ⟨by decide, scan_failure_console_only [scenarioC] (by decide)⟩

/-- C6: priority tie-break.  A device for which some KMBox pattern matches
the hardware IDs or the description contributes exactly one record to the
returned list, at its place in the enumeration, and that record carries the
KMBox reason, whatever Fuzer or DMA patterns match as well. -/
theorem scan_kmbox_priority (pre post : List EnumeratedDevice) (e : EnumeratedDevice)
    (hk : categoryMatches (GetDeviceHardwareIds e.hardwareIdQuery) e.deviceDesc
      KMBOX_PATTERNS = true) :
    (ScanForSuspiciousDevices (some (pre ++ e :: post))).returned =
      (ScanForSuspiciousDevices (some pre)).returned ++
        [⟨e.hardwareIdProperty, e.deviceDesc, GetDeviceHardwareIds e.hardwareIdQuery, true,
          KMBOX_REASON⟩] ++
        (ScanForSuspiciousDevices (some post)).returned := by
  have hp : pushed e = some ⟨e.hardwareIdProperty, e.deviceDesc,
      GetDeviceHardwareIds e.hardwareIdQuery, true, KMBOX_REASON⟩ := by
    simp [pushed, hk]
  simp [returned_eq, List.filterMap_append, List.filterMap_cons, hp]

/-- C6 at scenario A: the device with hardware IDs `VID_1A2C&PID_2124` and
empty description yields exactly one record, with the KMBox reason. -/
theorem scan_kmbox_priority_witness :
    categoryMatches (GetDeviceHardwareIds scenarioA.hardwareIdQuery) scenarioA.deviceDesc
        KMBOX_PATTERNS = true ∧
    (ScanForSuspiciousDevices (some ([] ++ scenarioA :: []))).returned =
      (ScanForSuspiciousDevices (some [])).returned ++
        [⟨lit "VID_1A2C&PID_2124", lit "", lit "VID_1A2C&PID_2124", true, KMBOX_REASON⟩] ++
        (ScanForSuspiciousDevices (some [])).returned :=
  ⟨by decide, scan_kmbox_priority [] [] scenarioA (by decide)⟩

/-- C7: all-empty devices are skipped.  A device whose joined hardware IDs
and description are both the empty string adds no record: the returned list
is the one obtained without that device. -/
theorem scan_skips_empty_device (pre post : List EnumeratedDevice) (e : EnumeratedDevice)
    (hh : GetDeviceHardwareIds e.hardwareIdQuery = lit "") (hd : e.deviceDesc = lit "") :
    (ScanForSuspiciousDevices (some (pre ++ e :: post))).returned =
      (ScanForSuspiciousDevices (some (pre ++ post))).returned := by
  have hp : pushed e = none := by
    rw [pushed_eq_none_iff]
    simp only [flagged, hh, hd]
    decide
  simp [returned_eq, List.filterMap_append, List.filterMap_cons, hp]

/-- C7 at a device with no hardware IDs and no description, enumerated
between two flagged devices. -/
theorem scan_skips_empty_device_witness :
    GetDeviceHardwareIds emptyDevice.hardwareIdQuery = lit "" ∧ emptyDevice.deviceDesc = lit "" ∧
    (ScanForSuspiciousDevices (some ([scenarioA] ++ emptyDevice :: [scenarioB]))).returned =
      (ScanForSuspiciousDevices (some ([scenarioA] ++ [scenarioB]))).returned :=
  ⟨rfl, rfl, scan_skips_empty_device [scenarioA] [scenarioB] emptyDevice rfl rfl⟩

/-- C10: flagging is monotone in device text.  If the joined hardware IDs of
`e` are a contiguous part of those of `e'`, and the description of `e` a
contiguous part of that of `e'`, then whenever the scan reports `e` it also
reports `e'`, under the same category or one earlier in the order KMBox,
Fuzer, DMA. -/
theorem scan_monotone (e e' : EnumeratedDevice) (r : DeviceInfo)
    (hh : GetDeviceHardwareIds e.hardwareIdQuery <:+: GetDeviceHardwareIds e'.hardwareIdQuery)
    (hd : e.deviceDesc <:+: e'.deviceDesc)
    (hr : r ∈ (ScanForSuspiciousDevices (some [e])).returned) :
    ∃ r', (ScanForSuspiciousDevices (some [e'])).returned = [r'] ∧
      priority r'.detectionReason ≤ priority r.detectionReason := by
  rw [returned_eq, List.mem_filterMap] at hr
  obtain ⟨e0, he0, hp⟩ := hr
  rw [List.mem_singleton] at he0
  subst he0
  obtain ⟨_, h2, h3, _, h5⟩ := pushed_some hp
  rw [h2, h3] at h5
  have hret : ∀ r', pushed e' = some r' →
      (ScanForSuspiciousDevices (some [e'])).returned = [r'] := by
    intro r' hr'
    simp [returned_eq, hr']
  rcases h5 with ⟨hreason, hk⟩ | ⟨hreason, _, hf⟩ | ⟨hreason, _, _, hdma⟩
  · have hk' := categoryMatches_mono hh hd _ hk
    refine ⟨⟨e'.hardwareIdProperty, e'.deviceDesc,
        GetDeviceHardwareIds e'.hardwareIdQuery, true, KMBOX_REASON⟩, hret _ (by simp [pushed, hk']), ?_⟩
    simp [priority_KMBOX]
  · have hf' := categoryMatches_mono hh hd _ hf
    by_cases hk' : categoryMatches (GetDeviceHardwareIds e'.hardwareIdQuery) e'.deviceDesc
        KMBOX_PATTERNS = true
    · refine ⟨⟨e'.hardwareIdProperty, e'.deviceDesc,
        GetDeviceHardwareIds e'.hardwareIdQuery, true, KMBOX_REASON⟩, hret _ (by simp [pushed, hk']), ?_⟩
      simp [priority_KMBOX]
    · refine ⟨⟨e'.hardwareIdProperty, e'.deviceDesc,
        GetDeviceHardwareIds e'.hardwareIdQuery, true, FUZER_REASON⟩, hret _ (by simp [pushed, hk', hf']), ?_⟩
      simp [hreason, priority_FUZER]
  · have hdma' := categoryMatches_mono hh hd _ hdma
    by_cases hk' : categoryMatches (GetDeviceHardwareIds e'.hardwareIdQuery) e'.deviceDesc
        KMBOX_PATTERNS = true
    · refine ⟨⟨e'.hardwareIdProperty, e'.deviceDesc,
        GetDeviceHardwareIds e'.hardwareIdQuery, true, KMBOX_REASON⟩, hret _ (by simp [pushed, hk']), ?_⟩
      simp [priority_KMBOX]
    · by_cases hf' : categoryMatches (GetDeviceHardwareIds e'.hardwareIdQuery) e'.deviceDesc
          FUZER_PATTERNS = true
      · refine ⟨⟨e'.hardwareIdProperty, e'.deviceDesc,
        GetDeviceHardwareIds e'.hardwareIdQuery, true, FUZER_REASON⟩, hret _ (by simp [pushed, hk', hf']), ?_⟩
        simp [hreason, priority_FUZER, priority_DMA]
      · refine ⟨⟨e'.hardwareIdProperty, e'.deviceDesc,
        GetDeviceHardwareIds e'.hardwareIdQuery, true, DMA_REASON⟩, hret _ (by simp [pushed, hk', hf', hdma']), ?_⟩
        simp [hreason, priority_DMA]

/-- C10 at a DMA-flagged description that, with `KMBOX` added in front, is
flagged under the KMBox category. -/
theorem scan_monotone_witness :
    GetDeviceHardwareIds none <:+: GetDeviceHardwareIds none ∧
    lit "FPGA board" <:+: lit "KMBOX FPGA board" ∧
    (⟨lit "", lit "FPGA board", lit "", true, DMA_REASON⟩ : DeviceInfo) ∈
      (ScanForSuspiciousDevices (some [⟨lit "", lit "FPGA board", none⟩])).returned ∧
    ∃ r', (ScanForSuspiciousDevices (some [⟨lit "", lit "KMBOX FPGA board", none⟩])).returned
        = [r'] ∧
      priority r'.detectionReason ≤ priority DMA_REASON :=
  ⟨List.infix_refl _, by decide, by decide,
   scan_monotone ⟨lit "", lit "FPGA board", none⟩ ⟨lit "", lit "KMBOX FPGA board", none⟩
     ⟨lit "", lit "FPGA board", lit "", true, DMA_REASON⟩ (List.infix_refl _) (by decide)
     (by decide)⟩

/-! ## Joined hardware IDs: claims -/

/-- C9: joining hardware IDs with `;` creates no match across a boundary.
For each of the three built-in pattern lists `L` and every list `ids` of
hardware-ID strings, `ContainsPattern` holds on the string that
`GetDeviceHardwareIds` joins from `ids` exactly when it holds on at least one
of the `ids`. -/
theorem joined_hardwareIds_match_iff (L : List Str)
    (hL : L ∈ [KMBOX_PATTERNS, FUZER_PATTERNS, DMA_PATTERNS]) (ids : List Str) :
    ContainsPattern (GetDeviceHardwareIds (some ids)) L = true ↔
      ∃ id ∈ ids, ContainsPattern id L = true := by
  have hsep : ∀ P ∈ L, 59 ∉ ToUpper P := by
    simp only [List.mem_cons, List.mem_singleton, List.not_mem_nil, or_false] at hL
    rcases hL with rfl | rfl | rfl <;> decide
  have hne : [] ∉ L := by
    simp only [List.mem_cons, List.mem_singleton, List.not_mem_nil, or_false] at hL
    rcases hL with rfl | rfl | rfl <;> decide
  have h := GetDeviceHardwareIds.loop_matches hsep hne ids []
  have hnil : ¬ ContainsPattern [] L = true := fun h => hne ((ContainsPattern_nil_text L).mp h)
  simpa [GetDeviceHardwareIds, lit, hnil] using h

/-- C9 at the KMBox list and the IDs `KM`, `BOX`: the joined string `KM;BOX`
matches no more than its parts do. -/
theorem joined_hardwareIds_match_iff_witness :
    KMBOX_PATTERNS ∈ [KMBOX_PATTERNS, FUZER_PATTERNS, DMA_PATTERNS] ∧
    GetDeviceHardwareIds (some [lit "KM", lit "BOX"]) = lit "KM;BOX" ∧
    (ContainsPattern (GetDeviceHardwareIds (some [lit "KM", lit "BOX"])) KMBOX_PATTERNS = true ↔
      ∃ id ∈ [lit "KM", lit "BOX"], ContainsPattern id KMBOX_PATTERNS = true) :=
  ⟨by decide, by decide,
   joined_hardwareIds_match_iff KMBOX_PATTERNS (by decide) [lit "KM", lit "BOX"]⟩

end DmaDetect
